import Mathlib

/-!
Verification of the foolaunch provisioning tool.

This file gives a shallow embedding, in Lean 4, of the core of the
`foolaunch` repository: the configuration-file loading chain
(`_load_configurations` in `foolaunch.py` and `load_configurations` in
`foolaunch/__init__.py`), the profile resolution and merge engine
(`Session.apply` / `Session._apply`), the block-device layout computation
(`_DEVICE_LETTER`, `_make_block_device_map`) and the launch procedure
(`Session.launch`), together with theorems settling the specification's
claims about them.

External collaborators (the boto EC2/ELB/VPC API) are modelled as an
oracle of pure functions, and the side effects the launch performs
against them are recorded as an explicit event trace.  Python dictionary
values are modelled by the `JValue` type of JSON-like values; Python
dictionaries holding configuration data are modelled as association
lists with first-key-wins lookup and overwrite-in-place insertion, which
agrees with Python `dict` semantics on all states reachable here (keys
are always distinct).  The unbounded recursion of `Session._apply` is
modelled with an explicit fuel parameter; exhausting the fuel stands for
the recursion exceeding any given depth.
-/

namespace Foolaunch

/-- JSON-like values, as produced by parsing a configuration file and as
stored in the `Session` attributes.  Numbers are modelled as integers
(no claim involves fractional values). -/
inductive JValue where
  | null : JValue
  | bool : Bool → JValue
  | num : Int → JValue
  | str : String → JValue
  | list : List JValue → JValue
  | obj : List (String × JValue) → JValue

mutual

/-- Structural equality of JSON values (Python `==` on these values). -/
def JValue.beq : JValue → JValue → Bool
  | .null, .null => true
  | .bool a, .bool b => a == b
  | .num a, .num b => a == b
  | .str a, .str b => a == b
  | .list a, .list b => JValue.beqList a b
  | .obj a, .obj b => JValue.beqObj a b
  | _, _ => false

def JValue.beqList : List JValue → List JValue → Bool
  | [], [] => true
  | x :: xs, y :: ys => JValue.beq x y && JValue.beqList xs ys
  | _, _ => false

def JValue.beqObj : List (String × JValue) → List (String × JValue) → Bool
  | [], [] => true
  | (k, v) :: xs, (k', v') :: ys =>
      k == k' && JValue.beq v v' && JValue.beqObj xs ys
  | _, _ => false

end

theorem JValue.beqList_iff_eq (l l' : List JValue)
    (ih : ∀ x ∈ l, ∀ b, (JValue.beq x b = true ↔ x = b)) :
    JValue.beqList l l' = true ↔ l = l' := by
  induction l generalizing l' with
  | nil => cases l' <;> simp [JValue.beqList]
  | cons x xs ihl =>
    cases l' with
    | nil => simp [JValue.beqList]
    | cons y ys =>
      simp only [JValue.beqList, Bool.and_eq_true, List.cons.injEq]
      rw [ih x (by simp) y, ihl ys (fun z hz => ih z (by simp [hz]))]

theorem JValue.beqObj_iff_eq (l l' : List (String × JValue))
    (ih : ∀ p ∈ l, ∀ b, (JValue.beq p.2 b = true ↔ p.2 = b)) :
    JValue.beqObj l l' = true ↔ l = l' := by
  induction l generalizing l' with
  | nil => cases l' <;> simp [JValue.beqObj]
  | cons x xs ihl =>
    cases l' with
    | nil => cases x; simp [JValue.beqObj]
    | cons y ys =>
      cases x with
      | mk k v =>
        cases y with
        | mk k' v' =>
          simp only [JValue.beqObj, Bool.and_eq_true, List.cons.injEq,
            Prod.mk.injEq, beq_iff_eq]
          rw [ih (k, v) (by simp) v', ihl ys (fun z hz => ih z (by simp [hz]))]

theorem JValue.beq_iff_eq (a b : JValue) : JValue.beq a b = true ↔ a = b := by
  cases a with
  | null => cases b <;> simp [JValue.beq]
  | bool x => cases b <;> simp [JValue.beq]
  | num x => cases b <;> simp [JValue.beq]
  | str x => cases b <;> simp [JValue.beq]
  | list l =>
    cases b with
    | list l' =>
      simp only [JValue.beq, JValue.list.injEq]
      exact JValue.beqList_iff_eq l l' (fun x hx c => JValue.beq_iff_eq x c)
    | null => simp [JValue.beq]
    | bool y => simp [JValue.beq]
    | num y => simp [JValue.beq]
    | str y => simp [JValue.beq]
    | obj y => simp [JValue.beq]
  | obj l =>
    cases b with
    | obj l' =>
      simp only [JValue.beq, JValue.obj.injEq]
      exact JValue.beqObj_iff_eq l l' (fun p hp c => JValue.beq_iff_eq p.2 c)
    | null => simp [JValue.beq]
    | bool y => simp [JValue.beq]
    | num y => simp [JValue.beq]
    | str y => simp [JValue.beq]
    | list y => simp [JValue.beq]
termination_by sizeOf a
decreasing_by
  · have := List.sizeOf_lt_of_mem hx
    simp only [JValue.list.sizeOf_spec]
    omega
  · have := List.sizeOf_lt_of_mem hp
    have h2 : sizeOf p.2 < sizeOf p := by
      cases p
      simp
    simp only [JValue.obj.sizeOf_spec]
    omega

instance : BEq JValue := ⟨JValue.beq⟩

instance : LawfulBEq JValue where
  eq_of_beq h := (JValue.beq_iff_eq _ _).mp h
  rfl := (JValue.beq_iff_eq _ _).mpr rfl

instance : DecidableEq JValue :=
  fun a b => decidable_of_iff (JValue.beq a b = true) (JValue.beq_iff_eq a b)

instance {ε α : Type} [DecidableEq ε] [DecidableEq α] :
    DecidableEq (Except ε α) :=
  fun a b =>
    match a, b with
    | .ok x, .ok y => decidable_of_iff (x = y) (by simp)
    | .error x, .error y => decidable_of_iff (x = y) (by simp)
    | .ok _, .error _ => isFalse (fun h => Except.noConfusion h)
    | .error _, .ok _ => isFalse (fun h => Except.noConfusion h)

/-- Python truthiness of a `JValue` (`if x:`):  `None`, `False`, `0`,
`""`, `[]` and `{}` are falsy, everything else is truthy. -/
def truthy : JValue → Bool
  | .null => false
  | .bool b => b
  | .num n => n != 0
  | .str s => s != ""
  | .list l => !l.isEmpty
  | .obj l => !l.isEmpty

/-- A Python `dict` with string keys, as an association list. -/
abbrev Total := List (String × JValue)

/-- Dictionary lookup (`d[k]` / `k in d`): first entry with the key. -/
def tLookup (m : Total) (k : String) : Option JValue :=
  (m.find? (fun p => p.1 == k)).map (fun p => p.2)

/-- Dictionary assignment `d[k] = v`: overwrite the entry in place if the
key is present, otherwise append the new entry at the end.  On lists
with distinct keys (the only ones built here) this is Python `dict`
assignment. -/
def tInsert : Total → String → JValue → Total
  | [], k, v => [(k, v)]
  | (k0, v0) :: rest, k, v =>
    if k0 == k then (k, v) :: rest else (k0, v0) :: tInsert rest k v

/-- Replay every entry of `m` onto `acc` by dictionary assignment
(`acc.update(m)`): later entries of `m` overwrite entries of `acc` with
the same key. -/
def mergeMaps (acc m : Total) : Total :=
  m.foldl (fun a kv => tInsert a kv.1 kv.2) acc

/-- The errors the configuration resolution can raise.  Each of the four
`ValueError`s of `Session._apply` gets a constructor; `fuelExhausted` is
the fuel model's stand-in for recursion beyond the available depth. -/
inductive CfgError where
  | fuelExhausted
  | unknownProfile (label : JValue)
  | invalidProfileShape (label : String)
  | invalidIncludeList (label : String)
  | unknownOption (key : String) (label : String)
  deriving DecidableEq

/-- `_VALID_KEYS` from `foolaunch.py`: the whitelist of recognized
configuration option names, plus the structural include key `"*"`. -/
def VALID_KEYS : List String :=
  ["profile", "region", "image", "instance_type", "placement", "subnet",
   "key", "instance_profile", "security_groups", "tags",
   "root_volume_size", "load_balancers", "user_data_b64", "spot", "name",
   "count", "price", "*"]

/-- The final loop of `Session._apply`: for every key/value pair of the
profile body, skip `"*"`, reject keys outside `VALID_KEYS`, and write
every other pair into the accumulator (`total[k] = v`). -/
def jApplyKeys (label : String) : List (String × JValue) → Total → Except CfgError Total
  | [], total => .ok total
  | (k, v) :: rest, total =>
    if k == "*" then jApplyKeys label rest total
    else if VALID_KEYS.contains k then jApplyKeys label rest (tInsert total k v)
    else .error (.unknownOption k label)

/-- The include loop of `Session._apply` (`for i in includes:
self._apply(i, total)`): run `f` on each include in order, threading the
accumulator, stopping at the first error. -/
def runIncludes (f : JValue → Total → Except CfgError Total) :
    List JValue → Total → Except CfgError Total
  | [], total => .ok total
  | i :: rest, total =>
    match f i total with
    | .error e => .error e
    | .ok t => runIncludes f rest t

/-- `Session._apply(label, total)` from `foolaunch.py`, with explicit
fuel bounding the recursion depth.  The label is a `JValue` because
include lists may contain arbitrary JSON values; a non-string label is
never a key of the document, so it raises the "configuration not found"
error, exactly as in Python. -/
def jApplyV (doc : Total) : Nat → JValue → Total → Except CfgError Total
  | 0, _, _ => .error .fuelExhausted
  | fuel + 1, label, total =>
    match label with
    | .str l =>
      match tLookup doc l with
      | none => .error (.unknownProfile label)
      | some cfg =>
        match cfg with
        | .obj kvs =>
          match tLookup kvs "*" with
          | none => jApplyKeys l kvs total
          | some (.list incs) =>
            match runIncludes (fun i t => jApplyV doc fuel i t) incs total with
            | .error e => .error e
            | .ok t1 => jApplyKeys l kvs t1
          | some _ => .error (.invalidIncludeList l)
        | _ => .error (.invalidProfileShape l)
    | _ => .error (.unknownProfile label)

example :
    jApplyV [("default", .obj [("region", .str "us-east-1")]),
             ("prod", .obj [("*", .list [.str "default"]),
                            ("instance_type", .str "m4.large")])]
      2 (.str "prod") [] =
    .ok [("region", .str "us-east-1"), ("instance_type", .str "m4.large")] := by
  decide

/-- The include loop as the specification words it (§4.2): resolve each
included profile *from an empty accumulator* and merge its result into
the running accumulator, later includes overwriting earlier ones. -/
def specIncludes (resolve : JValue → Except CfgError Total) :
    List JValue → Total → Except CfgError Total
  | [], acc => .ok acc
  | i :: rest, acc =>
    match resolve i with
    | .error e => .error e
    | .ok m => specIncludes resolve rest (mergeMaps acc m)

/-- `resolve(document, profileName)` exactly as the specification
describes the algorithm: start with an empty accumulator; if an include
list is present, resolve each included profile in list order and merge
its result into the accumulator; then overlay every non-`"*"` key of
the profile itself.  This is the spec-side definition to be compared
with the source's accumulator-threading `jApplyV`. -/
def resolveSpec (doc : Total) : Nat → JValue → Except CfgError Total
  | 0, _ => .error .fuelExhausted
  | fuel + 1, label =>
    match label with
    | .str l =>
      match tLookup doc l with
      | none => .error (.unknownProfile label)
      | some cfg =>
        match cfg with
        | .obj kvs =>
          match tLookup kvs "*" with
          | none => jApplyKeys l kvs []
          | some (.list incs) =>
            match specIncludes (fun i => resolveSpec doc fuel i) incs [] with
            | .error e => .error e
            | .ok acc => jApplyKeys l kvs acc
          | some _ => .error (.invalidIncludeList l)
        | _ => .error (.invalidProfileShape l)
    | _ => .error (.unknownProfile label)

/-! ## Configuration file loading -/

/-- The fixed default search path of both loaders. -/
def defaultConfigFiles : List String :=
  ["./.foolaunch", "~/.foolaunch", "/etc/foolaunch"]

/-- `_load_configurations(*args)` from `foolaunch.py`.  The file system
is modelled by `read` (`none` = the `open`/`read` raised, swallowed by
the `except: continue`) and the JSON decoder by `parse` (`none` = the
decoder raised).  The loop stores each successful read into `body`
without breaking, so `body` ends up holding the *last* successful read;
parsing happens once, after the loop, and a parse failure there
propagates (result `none` models the uncaught exception). -/
def _load_configurations (read : String → Option String)
    (parse : String → Option JValue) (args : List String) : Option JValue :=
  let filenames := if args.isEmpty then defaultConfigFiles
                   else args ++ defaultConfigFiles
  match ((filenames.filterMap read).getLast?) with
  | none => some (.obj [])
  | some body => if body == "" then some (.obj []) else parse body

/-- `load_configurations(*args)` from `foolaunch/__init__.py`: the
`try` block covers reading *and* decoding, returning at the first
candidate that is both read and parsed; any failure falls through to
the next candidate; an empty document is returned when all fail. -/
def load_configurations (read : String → Option String)
    (parse : String → Option JValue) (args : List String) : JValue :=
  let filenames := if args.isEmpty then defaultConfigFiles
                   else args ++ defaultConfigFiles
  match (filenames.filterMap (fun fn => (read fn).bind parse)).head? with
  | some d => d
  | none => .obj []

/-! ## Block-device layout -/

/-- `_EC2_INSTANCE_VOLUME_COUNT` from `foolaunch.py`: the static table
mapping instance type to its number of instance-local ephemeral
volumes. -/
def _EC2_INSTANCE_VOLUME_COUNT : List (String × Nat) :=
  [("x1.16xlarge", 1), ("x1e.4xlarge", 1), ("x1e.16xlarge", 1),
   ("x1.32xlarge", 2), ("x1e.2xlarge", 1), ("d2.8xlarge", 24),
   ("d2.2xlarge", 6), ("d2.xlarge", 3), ("x1e.32xlarge", 2),
   ("d2.4xlarge", 12), ("x1e.8xlarge", 1), ("x1e.xlarge", 1),
   ("f1.4xlarge", 1), ("h1.8xlarge", 4), ("h1.16xlarge", 8),
   ("h1.4xlarge", 2), ("h1.2xlarge", 1)]

/-- Lookup in the volume-count table (`_EC2_INSTANCE_VOLUME_COUNT[t]`).
The configured instance type is an arbitrary JSON value; a non-string
never equals a string key, so it is simply not found (`KeyError`). -/
def volumeCount (instance_type : JValue) : Option Nat :=
  match instance_type with
  | .str t => (_EC2_INSTANCE_VOLUME_COUNT.find? (fun p => p.1 == t)).map (fun p => p.2)
  | _ => none

/-- `_DEVICE_LETTER` from `foolaunch.py`: `chr(ord('a')+i)` for
`i in xrange(1, 26)`, then `chr(ord('a')+i) + chr(ord('a')+j)` for
`i, j in xrange(0, 26) × xrange(0, 26)`. -/
def _DEVICE_LETTER : List String :=
  (List.range' 1 25).map (fun i => String.mk [Char.ofNat (97 + i)]) ++
  (List.range 26).flatMap (fun i =>
    (List.range 26).map (fun j =>
      String.mk [Char.ofNat (97 + i), Char.ofNat (97 + j)]))

/-- One value of the boto block-device mapping: either a root-volume
size override or an ephemeral-volume descriptor. -/
structure BlockDeviceType where
  size : Option JValue
  ephemeral_name : Option String
  deriving DecidableEq

/-- A boto `BlockDeviceMapping`: device path to device descriptor. -/
abbrev BDM := List (String × BlockDeviceType)

/-- The AMI image as far as the launch consults it: its id and the
declared size of its root device
(`image.block_device_mapping['/dev/xvda'].size`). -/
structure Image where
  id : String
  root_size : JValue
  deriving DecidableEq

/-- The errors `Session.launch` can raise, plus `spotPollDiverged`, the
model's stand-in for the spot-poll loop never observing a non-open
state. -/
inductive LaunchErr where
  | ambiguousImage
  | tooManySubnets
  | unknownInstanceType (instance_type : JValue)
  | priceNotFound (instance_type : JValue) (region : String)
  | spotPollDiverged
  deriving DecidableEq

/-- `_make_block_device_map(image, instance_type, root_volume_size)` from
`foolaunch.py`.  A root entry is added when a truthy size override
differs from the image's root size; then one ephemeral entry per
instance-local volume is added at `/dev/sd<letter>`; an instance type
absent from the volume table raises `KeyError`
(`unknownInstanceType`) and no mapping is returned.  `None` is returned
when the mapping would be empty.  (The letter index never exceeds the
701 generated letters: the table's largest count is 24.) -/
def _make_block_device_map (image : Image) (instance_type : JValue)
    (root_volume_size : JValue) : Except LaunchErr (Option BDM) :=
  let root : BDM :=
    if truthy root_volume_size && !(image.root_size == root_volume_size) then
      [("/dev/xvda", ⟨some root_volume_size, none⟩)]
    else []
  match volumeCount instance_type with
  | none => .error (.unknownInstanceType instance_type)
  | some n =>
    let bdm := root ++ (List.range n).map (fun i =>
      ("/dev/sd" ++ _DEVICE_LETTER.getD i "",
       (⟨none, some ("ephemeral" ++ toString i)⟩ : BlockDeviceType)))
    if bdm.length > 0 then .ok (some bdm) else .ok none

/-! ## The Session object -/

/-- The `Session` object of `foolaunch.py`: the loaded configuration
document plus one attribute per configuration option.  In `__init__`
every attribute starts as `None` except `spot` and `dry_run`, which
start as `False`. -/
structure Session where
  configurations : Total
  profile : JValue := .null
  region : JValue := .null
  image : JValue := .null
  instance_type : JValue := .null
  placement : JValue := .null
  subnet : JValue := .null
  key : JValue := .null
  instance_profile : JValue := .null
  security_groups : JValue := .null
  tags : JValue := .null
  root_volume_size : JValue := .null
  load_balancers : JValue := .null
  user_data_b64 : JValue := .null
  spot : JValue := .bool false
  dry_run : JValue := .bool false
  name : JValue := .null
  count : JValue := .null
  price : JValue := .null
  deriving DecidableEq

/-- `setattr(self, k, v)` for the attributes reachable from
`Session.apply`: every key `_apply` lets through is in `VALID_KEYS`
and differs from `"*"`, and each of those names is a `Session`
attribute.  (`dry_run` is not in `VALID_KEYS`, so it can never be set
from a configuration.) -/
def Session.setAttr (s : Session) (k : String) (v : JValue) : Session :=
  if k == "profile" then { s with profile := v }
  else if k == "region" then { s with region := v }
  else if k == "image" then { s with image := v }
  else if k == "instance_type" then { s with instance_type := v }
  else if k == "placement" then { s with placement := v }
  else if k == "subnet" then { s with subnet := v }
  else if k == "key" then { s with key := v }
  else if k == "instance_profile" then { s with instance_profile := v }
  else if k == "security_groups" then { s with security_groups := v }
  else if k == "tags" then { s with tags := v }
  else if k == "root_volume_size" then { s with root_volume_size := v }
  else if k == "load_balancers" then { s with load_balancers := v }
  else if k == "user_data_b64" then { s with user_data_b64 := v }
  else if k == "spot" then { s with spot := v }
  else if k == "name" then { s with name := v }
  else if k == "count" then { s with count := v }
  else if k == "price" then { s with price := v }
  else s

/-- `Session.apply(label)` from `foolaunch.py`: check the label is
present, resolve it into a fresh `total` dictionary via `_apply`, and
only then copy every resolved pair onto the session's attributes.  The
result carries the session state after the call together with the
raised error, if any: when `_apply` raises, the `setattr` loop is never
reached and the session is returned as it was. -/
def Session.applyCfg (s : Session) (fuel : Nat) (label : String) :
    Session × Option CfgError :=
  if (tLookup s.configurations label).isNone then
    (s, some (.unknownProfile (.str label)))
  else
    match jApplyV s.configurations fuel (.str label) [] with
    | .error e => (s, some e)
    | .ok total => (total.foldl (fun acc kv => acc.setAttr kv.1 kv.2) s, none)

/-! ## The launch procedure

`Session.launch` talks to boto.  Everything the cloud returns is
modelled by an `Oracle` of pure functions, and every side-effecting
call the launch makes against the cloud is recorded in an event trace.
The trace is kept even when the launch raises, so frame claims about
what a failed or dry-run launch did are expressible. -/

/-- One VPC subnet as the launch consults it (`s.id`, `s.tags["Name"]`,
`none` when the subnet has no `Name` tag). -/
structure Subnet where
  id : String
  name_tag : Option JValue
  deriving DecidableEq

/-- One observation of a spot request
(`conn.ec2.get_all_spot_instance_requests(id)[0]`). -/
structure SpotSnap where
  state : String
  instance_id : String
  deriving DecidableEq

/-- One instance record from the final
`conn.ec2.get_all_instances(instance_ids)` re-fetch. -/
structure InstanceRec where
  id : String
  ip_address : String
  deriving DecidableEq

/-- The keyword arguments assembled for `run_instances` /
`request_spot_instances`. -/
structure CreateKwargs where
  instance_type : JValue
  dry_run : JValue
  subnet_id : Option String := none
  placement : Option JValue := none
  key_name : Option JValue := none
  instance_profile_name : Option JValue := none
  security_group_ids : Option (List String) := none
  block_device_map : Option BDM := none
  user_data : Option JValue := none
  count : Option JValue := none
  min_count : Option JValue := none
  max_count : Option JValue := none
  deriving DecidableEq

/-- The side-effecting cloud calls the launch performs, as recorded in
the trace. -/
inductive Event where
  | runInstances (image_id : String) (dry_run : JValue)
  | requestSpot (price : JValue) (image_id : String)
  | createTags (ids : List String) (tags : JValue) (dry_run : JValue)
  | registerInstances (lb : JValue) (ids : List String)
  deriving DecidableEq

/-- The external cloud collaborator: every boto query the launch makes,
as a pure function of its arguments.  `price_table` is the
`_EC2_INSTANCE_PRICE` table, which `foolaunch.py` loads from the
bundled `prices.txt` data file at import time. -/
structure Oracle where
  region_name : String
  images : JValue → List Image
  subnets : List Subnet
  sec_groups : JValue → List String
  price_table : List ((String × String) × JValue)
  run_instances : String → CreateKwargs → List String
  request_spot : JValue → String → CreateKwargs → List String
  spot_snaps : String → List SpotSnap
  records : List String → List InstanceRec

/-- `_lookup_ami_id(ec2, name)`: exactly one image must match. -/
def _lookup_ami_id (images : List Image) : Except LaunchErr Image :=
  match images with
  | [img] => .ok img
  | _ => .error .ambiguousImage

/-- `_lookup_security_group_ids(ec2, names)`: `None` for a falsy name
list, otherwise the matching group ids. -/
def _lookup_security_group_ids (lookup : JValue → List String)
    (names : JValue) : Option (List String) :=
  if truthy names then some (lookup names) else none

/-- The subnet-resolution step of `Session.launch`: when a subnet name
is configured, filter all subnets by their `Name` tag; no match leaves
the subnet id unset, more than one match raises, exactly one match
yields its id. -/
def subnetStep (subnets : List Subnet) (subnet : JValue) :
    Except LaunchErr (Option String) :=
  if truthy subnet then
    match subnets.filter (fun sn => sn.name_tag == some subnet) with
    | [] => .ok none
    | [sn] => .ok (some sn.id)
    | _ => .error .tooManySubnets
  else .ok none

/-- `_EC2_INSTANCE_PRICE[(instance_type, region)]`. -/
def priceLookup (table : List ((String × String) × JValue))
    (instance_type : JValue) (region : String) : Option JValue :=
  match instance_type with
  | .str t => ((table.find? (fun e => e.1.1 == t && e.1.2 == region)).map (fun e => e.2))
  | _ => none

/-- The spot-request polling loop of `Session.launch`: for each request
id in order, poll while the state is `"open"` (the first non-open
observation is the terminal one); a terminal state other than
`"active"` skips the request; `"active"` contributes the assigned
instance id.  A request that never leaves `"open"` makes the real loop
run forever, modelled by `spotPollDiverged`. -/
def pollAll (o : Oracle) : List String → Except LaunchErr (List String)
  | [] => .ok []
  | rid :: rest =>
    match (o.spot_snaps rid).find? (fun sn => sn.state != "open") with
    | none => .error .spotPollDiverged
    | some sn =>
      match pollAll o rest with
      | .error e => .error e
      | .ok ids => .ok (if sn.state == "active" then sn.instance_id :: ids else ids)

/-- Python iteration over a configured value
(`for load_balancer in self.load_balancers`): a list yields its
elements, a string its characters, a dict its keys; the claims only
exercise the list case. -/
def jElems : JValue → List JValue
  | .list l => l
  | .str s => s.data.map (fun c => .str (String.mk [c]))
  | .obj l => l.map (fun p => .str p.1)
  | _ => []

/-- The tail of `Session.launch`, from `if instance_ids:` on: tag with
the `Name` tag and the user tags (both calls passing the session's
dry-run flag through to boto), register with each load balancer unless
in dry-run mode, then re-fetch and return the instance records.  With
no instance ids, nothing happens and an empty list is returned. -/
def launchFinish (s : Session) (o : Oracle) (evs : List Event)
    (instance_ids : List String) : List Event × Except LaunchErr (List InstanceRec) :=
  if instance_ids.isEmpty then (evs, .ok [])
  else
    let evs := evs ++
      (if truthy s.name then
        [Event.createTags instance_ids (.obj [("Name", s.name)]) s.dry_run]
       else []) ++
      (if truthy s.tags then
        [Event.createTags instance_ids s.tags s.dry_run]
       else []) ++
      (if !truthy s.dry_run && truthy s.load_balancers then
        (jElems s.load_balancers).map (fun lb => Event.registerInstances lb instance_ids)
       else [])
    (evs, .ok (o.records instance_ids))

/-- `Session.launch` from `foolaunch.py`, returning the event trace of
side-effecting cloud calls together with the result (the re-fetched
instance records, or the raised error). -/
def Session.launch (s : Session) (o : Oracle) :
    List Event × Except LaunchErr (List InstanceRec) :=
  match _lookup_ami_id (o.images s.image) with
  | .error e => ([], .error e)
  | .ok image =>
  match subnetStep o.subnets s.subnet with
  | .error e => ([], .error e)
  | .ok subnet_id =>
  match _make_block_device_map image s.instance_type s.root_volume_size with
  | .error e => ([], .error e)
  | .ok bdm =>
  let sgids := _lookup_security_group_ids o.sec_groups s.security_groups
  let kw : CreateKwargs := { instance_type := s.instance_type, dry_run := s.dry_run }
  let kw := match subnet_id with
    | some sid => if sid != "" then { kw with subnet_id := some sid }
                  else if truthy s.placement then { kw with placement := some s.placement }
                  else kw
    | none => if truthy s.placement then { kw with placement := some s.placement } else kw
  let kw := if truthy s.key then { kw with key_name := some s.key } else kw
  let kw := if truthy s.instance_profile then
              { kw with instance_profile_name := some s.instance_profile } else kw
  let kw := match sgids with
    | some l => if !l.isEmpty then { kw with security_group_ids := some l } else kw
    | none => kw
  let kw := match bdm with
    | some m => if !m.isEmpty then { kw with block_device_map := some m } else kw
    | none => kw
  let kw := if truthy s.user_data_b64 then { kw with user_data := some s.user_data_b64 } else kw
  if truthy s.spot then
    let kw := if truthy s.count then { kw with count := some s.count } else kw
    match priceLookup o.price_table s.instance_type o.region_name with
    | none => ([], .error (.priceNotFound s.instance_type o.region_name))
    | some table_price =>
      let price := if truthy s.price then s.price else table_price
      let rids := o.request_spot price image.id kw
      match pollAll o rids with
      | .error e => ([Event.requestSpot price image.id], .error e)
      | .ok instance_ids =>
        launchFinish s o [Event.requestSpot price image.id] instance_ids
  else
    let kw := if truthy s.count then
                { kw with min_count := some s.count, max_count := some s.count } else kw
    let instance_ids := o.run_instances image.id kw
    launchFinish s o [Event.runInstances image.id s.dry_run] instance_ids

/-! ## Concrete data used to instantiate the claims -/

/-- Modelled from the spec: the device-letter sequence it prescribes —
"single letters `b`..`z`, then all two-letter combinations `aa`..`zz`,
assigned in that fixed order to ephemeral volume indices 0, 1, 2, …",
with index `k` among the pairs decomposed as `(k / 26, k % 26)` in
alphabet positions. -/
def deviceLetterSpecList : List String :=
  (List.range 25).map (fun i => String.mk [Char.ofNat (98 + i)]) ++
  (List.range 676).map (fun k =>
    String.mk [Char.ofNat (97 + k / 26), Char.ofNat (97 + k % 26)])

/-- A file system with two readable candidates on the default search
path: `./.foolaunch` and `/etc/foolaunch`. -/
def readTwoFiles : String → Option String := fun fn =>
  if fn == "./.foolaunch" then some "A"
  else if fn == "/etc/foolaunch" then some "B"
  else none

/-- A parser mapping the two bodies above to distinct documents. -/
def parseTwoFiles : String → Option JValue := fun b =>
  if b == "A" then some (.obj [("a", .null)])
  else if b == "B" then some (.obj [("b", .null)])
  else none

/-- A file system where `./.foolaunch` is readable and well-formed and
`~/.foolaunch` is readable but malformed. -/
def readMalformedLast : String → Option String := fun fn =>
  if fn == "./.foolaunch" then some "A"
  else if fn == "~/.foolaunch" then some "X"
  else none

/-- A parser for which body `"X"` is malformed. -/
def parseMalformedLast : String → Option JValue := fun b =>
  if b == "A" then some (.obj [("a", .null)]) else none

/-- The include-graph edge relation of a document: profile `a`'s body
is a mapping whose `"*"` value is a list containing the name `b`.
These are exactly the recursive calls of `_apply` that can nest further
(a non-string include element fails immediately with "not found"). -/
def IncEdge (doc : Total) (a b : String) : Prop :=
  ∃ kvs incs, tLookup doc a = some (.obj kvs) ∧
    tLookup kvs "*" = some (.list incs) ∧ (JValue.str b) ∈ incs

/-- A cyclic include chain is reachable from `start` through the
include graph. -/
def ReachesCycle (doc : Total) (start : String) : Prop :=
  ∃ c, Relation.ReflTransGen (IncEdge doc) start c ∧
    Relation.TransGen (IncEdge doc) c c

/-- Resolution of `label` diverges: every recursion-depth budget is
exhausted (the fuel model's rendering of unbounded recursion). -/
def Diverges (doc : Total) (label : String) : Prop :=
  ∀ fuel, jApplyV doc fuel (.str label) [] = .error .fuelExhausted

/-- Resolution of `label` terminates: beyond some depth budget the
result never reports exhaustion (the recursion depth is bounded). -/
def Terminates (doc : Total) (label : String) : Prop :=
  ∃ n, ∀ fuel, n ≤ fuel → jApplyV doc fuel (.str label) [] ≠ .error .fuelExhausted

/-- A document whose include graph has a cycle reachable from `a`
(`a` includes itself), but whose resolution of `a` terminates: the
include list reaches the invalid profile `b` and aborts before the
self-include is recursed into. -/
def docCycleButTerminates : Total :=
  [("a", .obj [("*", .list [.str "b", .str "a"])]),
   ("b", .obj [("zzz", .num 1)])]

/-- The one-profile self-including document. -/
def docSelfInclude : Total :=
  [("a", .obj [("*", .list [.str "a"])])]

/-- A document with no includes at all, for witnessing termination. -/
def docNoIncludes : Total :=
  [("p", .obj [("region", .str "r")])]

/-- A document exhibiting each resolution error: a non-mapping entry, a
non-list include value, an unrecognized option key, and an include
naming an absent profile. -/
def docErrors : Total :=
  [("notadict", .str "hi"),
   ("badinc", .obj [("*", .num 3)]),
   ("badkey", .obj [("flavor", .str "x")]),
   ("incmissing", .obj [("*", .list [.str "ghost"])])]

/-- A dry-run session configured with a display name, user tags and a
load balancer, launching on demand. -/
def sessionDryRun : Session :=
  { configurations := []
    image := .str "web-ami"
    instance_type := .str "d2.xlarge"
    name := .str "web"
    tags := .obj [("env", .str "prod")]
    load_balancers := .list [.str "lb-1"]
    dry_run := .bool true }

/-- An oracle for the dry-run scenario: one matching image, and
`run_instances` produces the single id `i-1`. -/
def oracleOnDemand : Oracle :=
  { region_name := "us-east-1"
    images := fun img => if img == .str "web-ami" then [⟨"ami-1", .num 8⟩] else []
    subnets := []
    sec_groups := fun _ => []
    price_table := []
    run_instances := fun _ _ => ["i-1"]
    request_spot := fun _ _ _ => []
    spot_snaps := fun _ => []
    records := fun ids => ids.map (fun i => ⟨i, "10.0.0.1"⟩) }

/-- A spot-pricing session. -/
def sessionSpot : Session :=
  { configurations := []
    image := .str "web-ami"
    instance_type := .str "d2.xlarge"
    region := .str "us-east-1"
    spot := .bool true }

/-- An oracle for the partial-failure spot scenario: two spot requests,
the first polling `open` then `cancelled`, the second `open` then
`active` with instance id `i-1`. -/
def oracleSpotPartial : Oracle :=
  { region_name := "us-east-1"
    images := fun _ => [⟨"ami-1", .num 8⟩]
    subnets := []
    sec_groups := fun _ => []
    price_table := [(("d2.xlarge", "us-east-1"), .num 1)]
    run_instances := fun _ _ => []
    request_spot := fun _ _ _ => ["sr-1", "sr-2"]
    spot_snaps := fun r =>
      if r == "sr-1" then [⟨"open", ""⟩, ⟨"cancelled", ""⟩]
      else if r == "sr-2" then [⟨"open", ""⟩, ⟨"active", "i-1"⟩]
      else []
    records := fun ids => ids.map (fun i => ⟨i, "10.0.0.2"⟩) }

/-- The same spot oracle but with every spot request failing. -/
def oracleSpotAllFail : Oracle :=
  { oracleSpotPartial with
    spot_snaps := fun r =>
      if r == "sr-1" then [⟨"cancelled", ""⟩]
      else if r == "sr-2" then [⟨"failed", ""⟩]
      else [] }

/-- The spot oracle with an empty price table. -/
def oracleSpotNoPrice : Oracle :=
  { oracleSpotPartial with price_table := [] }

/-! ## Dictionary lemmas

The merge engine threads one mutable `total` dictionary through the
recursion, while the specification describes resolving each include
from an empty accumulator and merging the result.  The lemmas below
relate `tInsert`/`mergeMaps` so the two formulations can be proved
equal. -/

/-- A dictionary state has pairwise-distinct keys.  Every state built
by `tInsert` from `[]` satisfies this, matching Python `dict`s. -/
def KeysNodup (m : Total) : Prop := (m.map Prod.fst).Nodup

theorem mergeMaps_nil (t : Total) : mergeMaps t [] = t := rfl

theorem mergeMaps_cons (t : Total) (k : String) (v : JValue) (m : Total) :
    mergeMaps t ((k, v) :: m) = mergeMaps (tInsert t k v) m := rfl

theorem mergeMaps_singleton (t : Total) (k : String) (v : JValue) :
    mergeMaps t [(k, v)] = tInsert t k v := rfl

theorem mem_keys_tInsert (m : Total) (k : String) (v : JValue) (a : String) :
    a ∈ (tInsert m k v).map Prod.fst ↔ a = k ∨ a ∈ m.map Prod.fst := by
  induction m with
  | nil => simp [tInsert]
  | cons hd rest ih =>
    obtain ⟨k0, v0⟩ := hd
    by_cases h : k0 = k
    · subst h
      simp [tInsert]
    · simp [tInsert, h, ih]
      tauto

theorem keysNodup_tInsert {m : Total} {k : String} {v : JValue}
    (h : KeysNodup m) : KeysNodup (tInsert m k v) := by
  induction m with
  | nil => simp [KeysNodup, tInsert]
  | cons hd rest ih =>
    obtain ⟨k0, v0⟩ := hd
    simp only [KeysNodup, List.map_cons, List.nodup_cons] at h
    by_cases hk : k0 = k
    · subst hk
      simpa [KeysNodup, tInsert] using h
    · have := ih h.2
      simp only [KeysNodup, tInsert, beq_iff_eq, if_neg hk, List.map_cons,
        List.nodup_cons, mem_keys_tInsert]
      exact ⟨fun hc => hc.elim (fun h1 => hk h1) (fun h1 => h.1 h1), this⟩

theorem tInsert_tInsert_same (t : Total) (k : String) (v0 v : JValue) :
    tInsert (tInsert t k v0) k v = tInsert t k v := by
  induction t with
  | nil => simp [tInsert]
  | cons hd rest ih =>
    obtain ⟨k1, v1⟩ := hd
    by_cases h : k1 = k
    · subst h; simp [tInsert]
    · simp [tInsert, h, ih]

theorem tInsert_tInsert_comm (t : Total) {k k1 : String} (v v1 : JValue)
    (h : k ≠ k1) (hk : k ∈ t.map Prod.fst) :
    tInsert (tInsert t k1 v1) k v = tInsert (tInsert t k v) k1 v1 := by
  induction t with
  | nil => simp at hk
  | cons hd rest ih =>
    obtain ⟨k2, v2⟩ := hd
    by_cases h2 : k2 = k
    · subst h2
      simp [tInsert, h, Ne.symm h]
    · by_cases h3 : k2 = k1
      · subst h3
        simp [tInsert, h, Ne.symm h, h2]
      · have hk' : k ∈ rest.map Prod.fst := by
          simp only [List.map_cons, List.mem_cons] at hk
          tauto
        simp [tInsert, h2, h3, ih hk']

theorem tInsert_mergeMaps_mem (a : Total) {k : String} (v : JValue)
    (hk : k ∉ a.map Prod.fst) :
    ∀ t, k ∈ t.map Prod.fst →
      tInsert (mergeMaps t a) k v = mergeMaps (tInsert t k v) a := by
  induction a with
  | nil => intro t _; rfl
  | cons hd rest ih =>
    obtain ⟨k1, v1⟩ := hd
    intro t ht
    simp only [List.map_cons, List.mem_cons] at hk
    push_neg at hk
    rw [mergeMaps_cons, mergeMaps_cons,
      ih hk.2 (tInsert t k1 v1) (by rw [mem_keys_tInsert]; exact Or.inr ht),
      tInsert_tInsert_comm t v v1 hk.1 ht]

theorem tInsert_mergeMaps (a : Total) (k : String) (v : JValue)
    (ha : KeysNodup a) :
    ∀ t, tInsert (mergeMaps t a) k v = mergeMaps t (tInsert a k v) := by
  induction a with
  | nil => intro t; rfl
  | cons hd rest ih =>
    obtain ⟨k0, v0⟩ := hd
    simp only [KeysNodup, List.map_cons, List.nodup_cons] at ha
    intro t
    by_cases h : k0 = k
    · subst h
      rw [mergeMaps_cons, show tInsert ((k0, v0) :: rest) k0 v = (k0, v) :: rest
          by simp [tInsert]]
      rw [mergeMaps_cons,
        tInsert_mergeMaps_mem rest v ha.1 (tInsert t k0 v0)
          (by rw [mem_keys_tInsert]; exact Or.inl rfl),
        tInsert_tInsert_same]
    · rw [mergeMaps_cons, ih ha.2,
        show tInsert ((k0, v0) :: rest) k v = (k0, v0) :: tInsert rest k v
          by simp [tInsert, h], mergeMaps_cons]

theorem mergeMaps_assoc (b a t : Total) (ha : KeysNodup a) :
    mergeMaps (mergeMaps t a) b = mergeMaps t (mergeMaps a b) := by
  induction b generalizing a with
  | nil => rfl
  | cons hd b' ih =>
    obtain ⟨k, v⟩ := hd
    rw [mergeMaps_cons, tInsert_mergeMaps a k v ha t,
      ih (tInsert a k v) (keysNodup_tInsert ha), mergeMaps_cons]

/-! ## Dictionary-key invariants of the resolver -/

theorem jApplyKeys_nodup (l : String) :
    ∀ (kvs : List (String × JValue)) (total t' : Total), KeysNodup total →
      jApplyKeys l kvs total = .ok t' → KeysNodup t' := by
  intro kvs
  induction kvs with
  | nil =>
    intro total t' hn h
    simp only [jApplyKeys, Except.ok.injEq] at h
    exact h ▸ hn
  | cons hd rest ih =>
    obtain ⟨k, v⟩ := hd
    intro total t' hn h
    simp only [jApplyKeys] at h
    split at h
    · exact ih total t' hn h
    · split at h
      · exact ih _ t' (keysNodup_tInsert hn) h
      · cases h

theorem runIncludes_nodup (f : JValue → Total → Except CfgError Total)
    (hf : ∀ lab total t', KeysNodup total → f lab total = .ok t' → KeysNodup t') :
    ∀ (incs : List JValue) (total t' : Total), KeysNodup total →
      runIncludes f incs total = .ok t' → KeysNodup t' := by
  intro incs
  induction incs with
  | nil =>
    intro total t' hn h
    simp only [runIncludes, Except.ok.injEq] at h
    exact h ▸ hn
  | cons i rest ih =>
    intro total t' hn h
    simp only [runIncludes] at h
    cases hf1 : f i total with
    | error e => rw [hf1] at h; cases h
    | ok m => rw [hf1] at h; exact ih m t' (hf i total m hn hf1) h

theorem jApplyV_nodup (doc : Total) :
    ∀ (fuel : Nat) (label : JValue) (total t' : Total), KeysNodup total →
      jApplyV doc fuel label total = .ok t' → KeysNodup t' := by
  intro fuel
  induction fuel with
  | zero => intro label total t' _ h; cases h
  | succ f ih =>
    intro label total t' hn h
    cases label with
    | str l =>
      simp only [jApplyV] at h
      cases ho : tLookup doc l with
      | none => simp [ho] at h
      | some cfg =>
        simp only [ho] at h
        cases cfg with
        | obj kvs =>
          cases hs : tLookup kvs "*" with
          | none =>
            simp only [hs] at h
            exact jApplyKeys_nodup l kvs total t' hn h
          | some inc =>
            simp only [hs] at h
            cases inc with
            | list incs =>
              cases hr : runIncludes (fun i t => jApplyV doc f i t) incs total with
              | error e => simp [hr] at h
              | ok t1 =>
                simp only [hr] at h
                exact jApplyKeys_nodup l kvs t1 t'
                  (runIncludes_nodup _ ih incs total t1 hn hr) h
            | null => simp at h
            | bool b => simp at h
            | num n => simp at h
            | str s => simp at h
            | obj o => simp at h
        | null => simp at h
        | bool b => simp at h
        | num n => simp at h
        | str s => simp at h
        | list xs => simp at h
    | null => simp [jApplyV] at h
    | bool b => simp [jApplyV] at h
    | num n => simp [jApplyV] at h
    | list xs => simp [jApplyV] at h
    | obj o => simp [jApplyV] at h

/-! ## The threading lemma

`_apply` writes into one shared accumulator; the lemmas below show the
final accumulator equals the result of resolving from an empty
accumulator merged onto the incoming one, which is the specification's
formulation. -/

theorem jApplyKeys_thread (l : String) :
    ∀ (kvs : List (String × JValue)) (total : Total),
      jApplyKeys l kvs total =
        Except.map (mergeMaps total) (jApplyKeys l kvs []) := by
  intro kvs
  induction kvs with
  | nil => intro total; rfl
  | cons hd rest ih =>
    obtain ⟨k, v⟩ := hd
    intro total
    by_cases h0 : k = "*"
    · subst h0
      rw [show jApplyKeys l (("*", v) :: rest) total = jApplyKeys l rest total
            from by simp [jApplyKeys],
          show jApplyKeys l (("*", v) :: rest) [] = jApplyKeys l rest []
            from by simp [jApplyKeys]]
      exact ih total
    · by_cases h1 : VALID_KEYS.contains k
      · simp only [jApplyKeys, beq_iff_eq, if_neg h0, if_pos h1]
        rw [ih (tInsert total k v), ih (tInsert [] k v)]
        cases hz : jApplyKeys l rest [] with
        | error e => rfl
        | ok z =>
          simp only [Except.map]
          rw [show tInsert ([] : Total) k v = [(k, v)] from rfl,
            ← mergeMaps_singleton total k v,
            mergeMaps_assoc z [(k, v)] total (by simp [KeysNodup])]
      · simp only [jApplyKeys, beq_iff_eq, if_neg h0, if_neg h1]
        rfl

theorem runIncludes_thread (f : JValue → Total → Except CfgError Total)
    (hf_thread : ∀ lab total, f lab total = Except.map (mergeMaps total) (f lab []))
    (hf_nodup : ∀ lab t', f lab [] = .ok t' → KeysNodup t') :
    ∀ (incs : List JValue) (total : Total),
      runIncludes f incs total =
        Except.map (mergeMaps total) (runIncludes f incs []) := by
  intro incs
  induction incs with
  | nil => intro total; rfl
  | cons i rest ih =>
    intro total
    simp only [runIncludes]
    rw [hf_thread i total]
    cases hfi : f i [] with
    | error e => rfl
    | ok m =>
      simp only [Except.map]
      rw [ih (mergeMaps total m), ih m]
      cases hr : runIncludes f rest [] with
      | error e => rfl
      | ok z =>
        simp only [Except.map]
        rw [mergeMaps_assoc z m total (hf_nodup i m hfi)]

theorem jApplyV_thread (doc : Total) :
    ∀ (fuel : Nat) (label : JValue) (total : Total),
      jApplyV doc fuel label total =
        Except.map (mergeMaps total) (jApplyV doc fuel label []) := by
  intro fuel
  induction fuel with
  | zero => intro label total; rfl
  | succ f ih =>
    intro label total
    cases label with
    | str l =>
      simp only [jApplyV]
      cases ho : tLookup doc l with
      | none => simp only [ho]; rfl
      | some cfg =>
        simp only [ho]
        cases cfg with
        | obj kvs =>
          cases hs : tLookup kvs "*" with
          | none =>
            simp only [hs]
            exact jApplyKeys_thread l kvs total
          | some inc =>
            simp only [hs]
            cases inc with
            | list incs =>
              show (match runIncludes (fun i t => jApplyV doc f i t) incs total with
                    | Except.error e => Except.error e
                    | Except.ok t1 => jApplyKeys l kvs t1) =
                  Except.map (mergeMaps total)
                    (match runIncludes (fun i t => jApplyV doc f i t) incs [] with
                     | Except.error e => Except.error e
                     | Except.ok t1 => jApplyKeys l kvs t1)
              rw [runIncludes_thread (fun i t => jApplyV doc f i t) ih
                (fun lab t' h => jApplyV_nodup doc f lab [] t' (by simp [KeysNodup]) h)
                incs total]
              cases hr : runIncludes (fun i t => jApplyV doc f i t) incs [] with
              | error e => simp only [hr]; rfl
              | ok t1 =>
                simp only [hr, Except.map]
                rw [jApplyKeys_thread l kvs (mergeMaps total t1),
                  jApplyKeys_thread l kvs t1]
                cases hz : jApplyKeys l kvs [] with
                | error e => rfl
                | ok z =>
                  simp only [Except.map]
                  rw [mergeMaps_assoc z t1 total
                    (runIncludes_nodup _ (jApplyV_nodup doc f) incs [] t1
                      (by simp [KeysNodup]) hr)]
            | null => rfl
            | bool b => rfl
            | num n => rfl
            | str s => rfl
            | obj o => rfl
        | null => rfl
        | bool b => rfl
        | num n => rfl
        | str s => rfl
        | list xs => rfl
    | null => rfl
    | bool b => rfl
    | num n => rfl
    | list xs => rfl
    | obj o => rfl

theorem specIncludes_congr (f g : JValue → Except CfgError Total)
    (h : ∀ i, f i = g i) :
    ∀ (incs : List JValue) (acc : Total),
      specIncludes f incs acc = specIncludes g incs acc := by
  intro incs
  induction incs with
  | nil => intro acc; rfl
  | cons i rest ih =>
    intro acc
    simp only [specIncludes, h i]
    cases g i with
    | error e => rfl
    | ok m => exact ih (mergeMaps acc m)

theorem specIncludes_eq_runIncludes (doc : Total) (fuel : Nat) :
    ∀ (incs : List JValue) (acc : Total),
      specIncludes (fun i => jApplyV doc fuel i []) incs acc =
        runIncludes (fun i t => jApplyV doc fuel i t) incs acc := by
  intro incs
  induction incs with
  | nil => intro acc; rfl
  | cons i rest ih =>
    intro acc
    simp only [specIncludes, runIncludes]
    rw [jApplyV_thread doc fuel i acc]
    cases hfi : jApplyV doc fuel i [] with
    | error e => rfl
    | ok m =>
      simp only [Except.map]
      exact ih (mergeMaps acc m)

theorem resolveSpec_eq_jApplyV (doc : Total) :
    ∀ (fuel : Nat) (label : JValue),
      resolveSpec doc fuel label = jApplyV doc fuel label [] := by
  intro fuel
  induction fuel with
  | zero => intro label; rfl
  | succ f ih =>
    intro label
    cases label with
    | str l =>
      simp only [resolveSpec, jApplyV]
      cases ho : tLookup doc l with
      | none => simp only [ho]
      | some cfg =>
        simp only [ho]
        cases cfg with
        | obj kvs =>
          cases hs : tLookup kvs "*" with
          | none => simp only [hs]
          | some inc =>
            simp only [hs]
            cases inc with
            | list incs =>
              show (match specIncludes (fun i => resolveSpec doc f i) incs [] with
                    | Except.error e => Except.error e
                    | Except.ok acc => jApplyKeys l kvs acc) =
                  (match runIncludes (fun i t => jApplyV doc f i t) incs [] with
                   | Except.error e => Except.error e
                   | Except.ok t1 => jApplyKeys l kvs t1)
              rw [specIncludes_congr (fun i => resolveSpec doc f i)
                  (fun i => jApplyV doc f i []) ih incs [],
                specIncludes_eq_runIncludes doc f incs []]
            | null => rfl
            | bool b => rfl
            | num n => rfl
            | str s => rfl
            | obj o => rfl
        | null => rfl
        | bool b => rfl
        | num n => rfl
        | str s => rfl
        | list xs => rfl
    | null => rfl
    | bool b => rfl
    | num n => rfl
    | list xs => rfl
    | obj o => rfl

/-! ## Claim C1: configuration loading -/

/-- C1.  The claim says configuration loading returns the first
candidate that is successfully read **and** parsed, skipping candidates
that cannot be read or parsed.  `_load_configurations` in `foolaunch.py`
(the loader `Session` uses) instead keeps reading every candidate,
so the **last** readable file wins, and a parse failure of that last
body propagates instead of being skipped.  `load_configurations` in
`foolaunch/__init__.py` implements exactly the claimed behavior, which
shows the claim captures the intent and `foolaunch.py` dropped the
early return.  With `./.foolaunch` and `/etc/foolaunch` both readable,
the code returns `/etc/foolaunch`'s document while the claimed
behavior returns `./.foolaunch`'s; with a malformed `~/.foolaunch`
after a well-formed `./.foolaunch`, the code raises (result `none`)
while the claimed behavior returns `./.foolaunch`'s document. -/
theorem c1_config_loading_last_read_wins :
    _load_configurations readTwoFiles parseTwoFiles [] = some (.obj [("b", .null)]) ∧
    load_configurations readTwoFiles parseTwoFiles [] = .obj [("a", .null)] ∧
    _load_configurations readMalformedLast parseMalformedLast [] = none ∧
    load_configurations readMalformedLast parseMalformedLast [] = .obj [("a", .null)] := by
  exact ⟨by decide, by decide, by decide, by decide⟩

/-! ## Claim C2: profile resolution algorithm -/

/-- C2.  `Session._apply` computes exactly what the specification's
algorithm prescribes: starting from an empty accumulator, each include
is resolved recursively (in list order) and merged into the
accumulator, later includes overwriting earlier ones on key collision,
and then every non-`"*"` key of the profile itself is overlaid,
overwriting include-contributed values — `resolveSpec` (the spec's
words) agrees with `jApplyV` from an empty accumulator (the code's
threaded accumulator) on every document, fuel and profile name.  In
particular, resolving `"prod"` in the two-profile scenario document
yields exactly `{region: "us-east-1", instance_type: "m4.large"}`. -/
theorem c2_resolution_matches_spec_algorithm :
    (∀ (doc : Total) (fuel : Nat) (label : JValue),
      resolveSpec doc fuel label = jApplyV doc fuel label []) ∧
    jApplyV [("default", .obj [("region", .str "us-east-1")]),
             ("prod", .obj [("*", .list [.str "default"]),
                            ("instance_type", .str "m4.large")])]
      2 (.str "prod") [] =
    .ok [("region", .str "us-east-1"), ("instance_type", .str "m4.large")] := by
  exact ⟨fun doc fuel label => resolveSpec_eq_jApplyV doc fuel label, by decide⟩

/-! ## Claim C8: termination and cyclic includes

If resolution runs out of fuel, the recursion followed a chain of
include edges as long as the fuel; a chain longer than the number of
profiles must revisit a profile, giving a reachable cycle.
Contrapositive: with no reachable cycle, fuel `doc.length + 2` always
suffices, i.e. resolution terminates.  A reachable cycle, however,
does **not** always cause unbounded recursion: an include processed
before the cycle can raise a validation error that aborts the
resolution first (`docCycleButTerminates`). -/

theorem jApplyKeys_ne_fuelExhausted (l : String) :
    ∀ (kvs : List (String × JValue)) (total : Total),
      jApplyKeys l kvs total ≠ .error .fuelExhausted := by
  intro kvs
  induction kvs with
  | nil => intro total h; cases h
  | cons hd rest ih =>
    obtain ⟨k, v⟩ := hd
    intro total h
    simp only [jApplyKeys] at h
    split at h
    · exact ih total h
    · split at h
      · exact ih _ h
      · simp at h

theorem runIncludes_error_exists (f : JValue → Total → Except CfgError Total) :
    ∀ (incs : List JValue) (total : Total) (e : CfgError),
      runIncludes f incs total = .error e →
      ∃ i ∈ incs, ∃ t, f i t = .error e := by
  intro incs
  induction incs with
  | nil => intro total e h; cases h
  | cons i rest ih =>
    intro total e h
    simp only [runIncludes] at h
    cases hf : f i total with
    | error e' =>
      rw [hf] at h
      simp only [Except.error.injEq] at h
      subst h
      exact ⟨i, by simp, total, hf⟩
    | ok m =>
      rw [hf] at h
      obtain ⟨i', hi', t, ht⟩ := ih m e h
      exact ⟨i', by simp [hi'], t, ht⟩

theorem jApplyV_nonstr (doc : Total) (fuel : Nat) :
    ∀ (i : JValue) (total : Total), (∀ s, i ≠ .str s) →
      jApplyV doc (fuel + 1) i total = .error (.unknownProfile i) := by
  intro i total hns
  cases i with
  | str s => exact absurd rfl (hns s)
  | null => rfl
  | bool b => rfl
  | num n => rfl
  | list l => rfl
  | obj o => rfl

theorem fuelExhausted_chain (doc : Total) :
    ∀ (fuel : Nat) (l : String) (total : Total),
      jApplyV doc fuel (.str l) total = .error .fuelExhausted →
      ∃ chain : List String, List.Chain (IncEdge doc) l chain ∧
        fuel ≤ chain.length + 1 := by
  intro fuel
  induction fuel with
  | zero => intro l total _; exact ⟨[], List.Chain.nil, by omega⟩
  | succ f ih =>
    intro l total h
    simp only [jApplyV] at h
    cases ho : tLookup doc l with
    | none => simp [ho] at h
    | some cfg =>
      simp only [ho] at h
      cases cfg with
      | obj kvs =>
        cases hs : tLookup kvs "*" with
        | none =>
          simp only [hs] at h
          exact absurd h (jApplyKeys_ne_fuelExhausted l kvs total)
        | some inc =>
          simp only [hs] at h
          cases inc with
          | list incs =>
            cases hr : runIncludes (fun i t => jApplyV doc f i t) incs total with
            | error e =>
              simp only [hr, Except.error.injEq] at h
              subst h
              obtain ⟨i, hi, t, hit⟩ := runIncludes_error_exists _ incs total _ hr
              cases f with
              | zero => exact ⟨[], List.Chain.nil, by omega⟩
              | succ f' =>
                cases i with
                | str m =>
                  obtain ⟨chain', hc', hlen⟩ := ih m t hit
                  refine ⟨m :: chain',
                    List.Chain.cons ⟨kvs, incs, ho, hs, hi⟩ hc', ?_⟩
                  simp only [List.length_cons]
                  omega
                | null =>
                  rw [jApplyV_nonstr doc f' _ t (fun s hh => by cases hh)] at hit
                  simp at hit
                | bool b =>
                  rw [jApplyV_nonstr doc f' _ t (fun s hh => by cases hh)] at hit
                  simp at hit
                | num n =>
                  rw [jApplyV_nonstr doc f' _ t (fun s hh => by cases hh)] at hit
                  simp at hit
                | list xs =>
                  rw [jApplyV_nonstr doc f' _ t (fun s hh => by cases hh)] at hit
                  simp at hit
                | obj o =>
                  rw [jApplyV_nonstr doc f' _ t (fun s hh => by cases hh)] at hit
                  simp at hit
            | ok t1 =>
              simp only [hr] at h
              exact absurd h (jApplyKeys_ne_fuelExhausted l kvs t1)
          | null => simp at h
          | bool b => simp at h
          | num n => simp at h
          | str s => simp at h
          | obj o => simp at h
      | null => simp at h
      | bool b => simp at h
      | num n => simp at h
      | str s => simp at h
      | list xs => simp at h

theorem chain_transGen_of_mem (doc : Total) :
    ∀ (l : List String) (a b : String), List.Chain (IncEdge doc) a l → b ∈ l →
      Relation.TransGen (IncEdge doc) a b := by
  intro l
  induction l with
  | nil => intro a b _ hb; simp at hb
  | cons c l' ih =>
    intro a b hc hb
    cases hc with
    | cons hac hc' =>
      rcases List.mem_cons.mp hb with rfl | hb'
      · exact Relation.TransGen.single hac
      · exact Relation.TransGen.head hac (ih c b hc' hb')

theorem chain_cycle_of_dup (doc : Total) :
    ∀ (l : List String) (a x : String), List.Chain (IncEdge doc) a l →
      List.Sublist [x, x] (a :: l) → ReachesCycle doc a := by
  intro l
  induction l with
  | nil =>
    intro a x _ hsub
    have := hsub.length_le
    simp at this
  | cons c l' ih =>
    intro a x hc hsub
    cases hc with
    | cons hac hc' =>
      cases hsub with
      | cons _ h =>
        obtain ⟨d, hreach, hcyc⟩ := ih c x hc' h
        exact ⟨d, Relation.ReflTransGen.head hac hreach, hcyc⟩
      | cons₂ _ h =>
        have hmem : a ∈ c :: l' := h.subset (by simp)
        exact ⟨a, Relation.ReflTransGen.refl,
          chain_transGen_of_mem doc (c :: l') a a (List.Chain.cons hac hc') hmem⟩

theorem incEdge_mem_keys {doc : Total} {a b : String} (h : IncEdge doc a b) :
    a ∈ doc.map Prod.fst := by
  obtain ⟨kvs, incs, h1, _, _⟩ := h
  unfold tLookup at h1
  cases hf : doc.find? (fun p => p.1 == a) with
  | none => rw [hf] at h1; cases h1
  | some p =>
    have hp := List.find?_some hf
    have hm : p ∈ doc := List.mem_of_find?_eq_some hf
    have ha : p.1 = a := by simpa using hp
    exact ha ▸ List.mem_map.mpr ⟨p, hm, rfl⟩

theorem chain_sources (doc : Total) :
    ∀ (chain : List String) (a : String), List.Chain (IncEdge doc) a chain →
      ∀ x ∈ (a :: chain).dropLast, ∃ y, IncEdge doc x y := by
  intro chain
  induction chain with
  | nil => intro a _ x hx; simp at hx
  | cons c rest ih =>
    intro a hc x hx
    cases hc with
    | cons hac hc' =>
      rw [show (a :: c :: rest).dropLast = a :: (c :: rest).dropLast from rfl] at hx
      rcases List.mem_cons.mp hx with rfl | hx'
      · exact ⟨c, hac⟩
      · exact ih c hc' x hx'

theorem chain_reaches_cycle (doc : Total) (l : String) (chain : List String)
    (hc : List.Chain (IncEdge doc) l chain)
    (hlen : doc.length + 1 ≤ chain.length) : ReachesCycle doc l := by
  by_cases hnd : (l :: chain).Nodup
  · exfalso
    have hsrc := chain_sources doc chain l hc
    have hsub : (l :: chain).dropLast.toFinset ⊆ (doc.map Prod.fst).toFinset := by
      intro x hx
      rw [List.mem_toFinset] at hx ⊢
      obtain ⟨y, hy⟩ := hsrc x hx
      exact incEdge_mem_keys hy
    have h1 : (l :: chain).dropLast.toFinset.card = (l :: chain).dropLast.length :=
      List.toFinset_card_of_nodup (hnd.sublist (List.dropLast_sublist _))
    have h2 := Finset.card_le_card hsub
    have h3 : (doc.map Prod.fst).toFinset.card ≤ doc.length := by
      calc (doc.map Prod.fst).toFinset.card ≤ (doc.map Prod.fst).length :=
            List.toFinset_card_le _
        _ = doc.length := List.length_map _ _
    have h4 : (l :: chain).dropLast.length = chain.length := by
      simp [List.length_dropLast]
    omega
  · obtain ⟨x, hdup⟩ := List.exists_duplicate_iff_not_nodup.mpr hnd
    exact chain_cycle_of_dup doc chain l x hc (List.duplicate_iff_sublist.mp hdup)

theorem diverges_selfInclude : Diverges docSelfInclude "a" := by
  intro fuel
  induction fuel with
  | zero => rfl
  | succ f ih =>
    show (match runIncludes (fun i t => jApplyV docSelfInclude f i t)
            [JValue.str "a"] [] with
          | Except.error e => Except.error e
          | Except.ok t1 => jApplyKeys "a" [("*", JValue.list [JValue.str "a"])] t1) =
        Except.error CfgError.fuelExhausted
    simp only [runIncludes, ih]

theorem docCycleButTerminates_eval (f : Nat) :
    jApplyV docCycleButTerminates (f + 2) (.str "a") [] =
      .error (.unknownOption "zzz" "b") := rfl

/-- C8, counterexample.  `docCycleButTerminates` has a cyclic include
chain reachable from `"a"` (`"a"` includes itself), yet resolving
`"a"` terminates: the include list first reaches profile `"b"`, whose
invalid key `"zzz"` aborts resolution with an error before the
self-include is entered.  This refutes the claim that every reachable
cyclic include chain causes unbounded recursion. -/
theorem c8_reachable_cycle_counterexample :
    ReachesCycle docCycleButTerminates "a" ∧
    Terminates docCycleButTerminates "a" := by
  constructor
  · refine ⟨"a", Relation.ReflTransGen.refl, Relation.TransGen.single ?_⟩
    refine ⟨[("*", .list [.str "b", .str "a"])], [.str "b", .str "a"],
      rfl, rfl, ?_⟩
    simp
  · refine ⟨2, fun fuel hf => ?_⟩
    obtain ⟨f, rfl⟩ : ∃ f, fuel = f + 2 := ⟨fuel - 2, by omega⟩
    rw [docCycleButTerminates_eval f]
    simp

/-- C8, amended.  Profile resolution terminates for every document
whose include graph, restricted to what is reachable from the resolved
profile, is acyclic (fuel `doc.length + 2` never runs out); and a
reachable cyclic include chain **can** cause unbounded recursion — the
self-including document diverges at every recursion depth — but, as
the counterexample shows, does not always: an error raised by an
earlier include can abort resolution before the cycle is entered. -/
theorem c8_termination_amended :
    (∀ (doc : Total) (label : String), ¬ ReachesCycle doc label →
      Terminates doc label) ∧
    Diverges docSelfInclude "a" := by
  constructor
  · intro doc label hnc
    refine ⟨doc.length + 2, fun fuel hf hex => hnc ?_⟩
    obtain ⟨chain, hc, hlen⟩ := fuelExhausted_chain doc fuel label [] hex
    exact chain_reaches_cycle doc label chain hc (by omega)
  · exact diverges_selfInclude

/-- Witness for `c8_termination_amended`: the include-free document
`docNoIncludes` has no reachable cycle, and the theorem yields
termination of resolving `"p"` in it. -/
theorem c8_termination_amended_witness :
    ¬ ReachesCycle docNoIncludes "p" ∧ Terminates docNoIncludes "p" := by
  have hni : ∀ x y, ¬ IncEdge docNoIncludes x y := by
    intro x y hxy
    obtain ⟨kvs, incs, h1, h2, _⟩ := hxy
    by_cases hx : x = "p"
    · subst hx
      rw [show tLookup docNoIncludes "p" =
            some (.obj [("region", .str "r")]) from rfl] at h1
      simp only [Option.some.injEq, JValue.obj.injEq] at h1
      subst h1
      rw [show tLookup [("region", JValue.str "r")] "*" = none from rfl] at h2
      cases h2
    · have hpx : ("p" : String) ≠ x := fun hh => hx hh.symm
      have hbf : (("p" : String) == x) = false := beq_eq_false_iff_ne.mpr hpx
      simp [docNoIncludes, tLookup, List.find?, hbf] at h1
  have hnr : ¬ ReachesCycle docNoIncludes "p" := by
    rintro ⟨c, _, hcyc⟩
    cases hcyc with
    | single h => exact hni _ _ h
    | tail _ h => exact hni _ _ h
  exact ⟨hnr, c8_termination_amended.1 docNoIncludes "p" hnr⟩

/-! ## Claim C5: resolution errors -/

/-- If some key of a profile body is outside the whitelist, the key
loop of `_apply` raises `ValueError` with an invalid key, whatever the
state of the accumulator. -/
theorem jApplyKeys_unknownOption (l : String) :
    ∀ (kvs : List (String × JValue)),
      (∃ p ∈ kvs, ¬ VALID_KEYS.contains p.1) →
      ∃ k', ¬ VALID_KEYS.contains k' ∧
        ∀ total, jApplyKeys l kvs total = .error (.unknownOption k' l) := by
  intro kvs
  induction kvs with
  | nil => rintro ⟨p, hp, _⟩; simp at hp
  | cons hd rest ih =>
    rintro ⟨p, hp, hinv⟩
    obtain ⟨k0, v0⟩ := hd
    by_cases h0 : k0 = "*"
    · subst h0
      rcases List.mem_cons.mp hp with h | h
      · subst h; simp [VALID_KEYS] at hinv
      · obtain ⟨k', hk', hrun⟩ := ih ⟨p, h, hinv⟩
        exact ⟨k', hk', fun total => by simp [jApplyKeys]; exact hrun total⟩
    · by_cases h1 : VALID_KEYS.contains k0
      · rcases List.mem_cons.mp hp with h | h
        · subst h; exact absurd h1 hinv
        · obtain ⟨k', hk', hrun⟩ := ih ⟨p, h, hinv⟩
          refine ⟨k', hk', fun total => ?_⟩
          simp only [jApplyKeys, beq_iff_eq, if_neg h0, if_pos h1]
          exact hrun (tInsert total k0 v0)
      · refine ⟨k0, h1, fun total => ?_⟩
        simp only [jApplyKeys, beq_iff_eq, if_neg h0, if_neg h1]

/-- C5.  For every document and profile name, resolution fails with
the "configuration not found" error when the name is absent (also for
a name referenced from an include list), with the "not a dict" error
when the entry is not a mapping, with the "default (*) not a list"
error when `"*"` is present but not a list, and with the "invalid
key" error when a key other than `"*"` is outside the whitelist; each
error aborts the call, returning no partial result (the `Except`
result carries no accumulator on the error path). -/
theorem c5_resolution_errors :
    ∀ (doc : Total) (fuel : Nat) (l : String) (total : Total),
      (tLookup doc l = none →
        jApplyV doc (fuel + 1) (.str l) total = .error (.unknownProfile (.str l))) ∧
      (∀ cfg, tLookup doc l = some cfg → (∀ kvs, cfg ≠ .obj kvs) →
        jApplyV doc (fuel + 1) (.str l) total = .error (.invalidProfileShape l)) ∧
      (∀ kvs inc, tLookup doc l = some (.obj kvs) → tLookup kvs "*" = some inc →
        (∀ il, inc ≠ .list il) →
        jApplyV doc (fuel + 1) (.str l) total = .error (.invalidIncludeList l)) ∧
      (∀ kvs k v, tLookup doc l = some (.obj kvs) → tLookup kvs "*" = none →
        (k, v) ∈ kvs → ¬ VALID_KEYS.contains k →
        ∃ k', ¬ VALID_KEYS.contains k' ∧
          jApplyV doc (fuel + 1) (.str l) total = .error (.unknownOption k' l)) ∧
      (∀ kvs m rest, tLookup doc l = some (.obj kvs) →
        tLookup kvs "*" = some (.list (.str m :: rest)) → tLookup doc m = none →
        jApplyV doc (fuel + 2) (.str l) total = .error (.unknownProfile (.str m))) := by
  intro doc fuel l total
  refine ⟨?_, ?_, ?_, ?_, ?_⟩
  · intro h; simp [jApplyV, h]
  · intro cfg h hno
    cases cfg with
    | obj kvs => exact absurd rfl (hno kvs)
    | null => simp [jApplyV, h]
    | bool b => simp [jApplyV, h]
    | num n => simp [jApplyV, h]
    | str s => simp [jApplyV, h]
    | list xs => simp [jApplyV, h]
  · intro kvs inc h1 h2 hno
    cases inc with
    | list il => exact absurd rfl (hno il)
    | null => simp [jApplyV, h1, h2]
    | bool b => simp [jApplyV, h1, h2]
    | num n => simp [jApplyV, h1, h2]
    | str s => simp [jApplyV, h1, h2]
    | obj xs => simp [jApplyV, h1, h2]
  · intro kvs k v h1 h2 hmem hinv
    obtain ⟨k', hk', hrun⟩ := jApplyKeys_unknownOption l kvs ⟨(k, v), hmem, hinv⟩
    exact ⟨k', hk', by simp [jApplyV, h1, h2]; exact hrun total⟩
  · intro kvs m rest h1 h2 h3
    simp [jApplyV, h1, h2, runIncludes, h3]

/-- Witness for `c5_resolution_errors`: each error case evaluated on
the concrete document `docErrors`. -/
theorem c5_resolution_errors_witness :
    (jApplyV docErrors 1 (.str "missing") [] = .error (.unknownProfile (.str "missing"))) ∧
    (jApplyV docErrors 1 (.str "notadict") [] = .error (.invalidProfileShape "notadict")) ∧
    (jApplyV docErrors 1 (.str "badinc") [] = .error (.invalidIncludeList "badinc")) ∧
    (∃ k', ¬ VALID_KEYS.contains k' ∧
      jApplyV docErrors 1 (.str "badkey") [] = .error (.unknownOption k' "badkey")) ∧
    (jApplyV docErrors 2 (.str "incmissing") [] = .error (.unknownProfile (.str "ghost"))) := by
  refine ⟨?_, ?_, ?_, ?_, ?_⟩
  · exact (c5_resolution_errors docErrors 0 "missing" []).1 (by decide)
  · exact (c5_resolution_errors docErrors 0 "notadict" []).2.1 (.str "hi") (by decide)
      (fun kvs h => by cases h)
  · exact (c5_resolution_errors docErrors 0 "badinc" []).2.2.1 [("*", .num 3)] (.num 3)
      (by decide) (by decide) (fun il h => by cases h)
  · exact (c5_resolution_errors docErrors 0 "badkey" []).2.2.2.1
      [("flavor", .str "x")] "flavor" (.str "x") (by decide) (by decide)
      (by decide) (by decide)
  · exact (c5_resolution_errors docErrors 0 "incmissing" []).2.2.2.2
      [("*", .list [.str "ghost"])] "ghost" [] (by decide) (by decide) (by decide)

/-! ## Claim C6: device-letter sequence -/

set_option maxRecDepth 10000 in
set_option maxHeartbeats 1000000 in
/-- C6.  The generated device-letter sequence is exactly the one the
spec prescribes: single letters `b`..`z`, then all two-letter
combinations `aa`..`zz`, in that fixed order; in particular indices
0, 24, 25, 26 map to `b`, `z`, `aa`, `ab`; and ephemeral index `i` is
attached at `/dev/sd<letter_i>` with descriptor `ephemeral<i>`. -/
theorem c6_device_letter_sequence :
    _DEVICE_LETTER = deviceLetterSpecList ∧
    (_DEVICE_LETTER.get? 0 = some "b" ∧ _DEVICE_LETTER.get? 24 = some "z" ∧
     _DEVICE_LETTER.get? 25 = some "aa" ∧ _DEVICE_LETTER.get? 26 = some "ab") ∧
    (∀ (instance_type : JValue) (n i : Nat) (image : Image) (rvs : JValue),
      volumeCount instance_type = some n → i < n →
      ∃ bdm, _make_block_device_map image instance_type rvs = .ok (some bdm) ∧
        ("/dev/sd" ++ _DEVICE_LETTER.getD i "",
         (⟨none, some ("ephemeral" ++ toString i)⟩ : BlockDeviceType)) ∈ bdm) := by
  refine ⟨by decide, ⟨by decide, by decide, by decide, by decide⟩, ?_⟩
  intro itype n i image rvs hvc hin
  have hmem : ("/dev/sd" ++ _DEVICE_LETTER.getD i "",
      (⟨none, some ("ephemeral" ++ toString i)⟩ : BlockDeviceType)) ∈
      (List.range n).map (fun j => ("/dev/sd" ++ _DEVICE_LETTER.getD j "",
      (⟨none, some ("ephemeral" ++ toString j)⟩ : BlockDeviceType))) :=
    List.mem_map.mpr ⟨i, List.mem_range.mpr hin, rfl⟩
  simp only [_make_block_device_map, hvc]
  split <;>
  · rw [if_pos (by
      simp only [List.length_append, List.length_map, List.length_range]
      omega)]
    exact ⟨_, rfl, List.mem_append.mpr (Or.inr hmem)⟩

/-- Witness for `c6_device_letter_sequence`: a `d2.xlarge` (3 ephemeral
volumes) gets its ephemeral index 2 attached at `/dev/sdd` as
`ephemeral2`. -/
theorem c6_device_letter_sequence_witness :
    volumeCount (.str "d2.xlarge") = some 3 ∧ 2 < 3 ∧
    ∃ bdm, _make_block_device_map ⟨"ami-1", .num 8⟩ (.str "d2.xlarge") .null =
        .ok (some bdm) ∧
      ("/dev/sd" ++ _DEVICE_LETTER.getD 2 "",
       (⟨none, some ("ephemeral" ++ toString 2)⟩ : BlockDeviceType)) ∈ bdm := by
  refine ⟨by decide, by decide, ?_⟩
  exact c6_device_letter_sequence.2.2 (.str "d2.xlarge") 3 2 ⟨"ami-1", .num 8⟩ .null
    (by decide) (by decide)

/-! ## Claim C7: unknown instance type -/

/-- C7.  For every instance type absent from the volume-count table,
`_make_block_device_map` raises `KeyError` (`unknownInstanceType`)
and returns no mapping at all, whether or not a root-volume-size
override was given. -/
theorem c7_unknown_instance_type :
    ∀ (image : Image) (root_volume_size instance_type : JValue),
      volumeCount instance_type = none →
      _make_block_device_map image instance_type root_volume_size =
        .error (.unknownInstanceType instance_type) := by
  intro image rvs itype h
  simp [_make_block_device_map, h]

/-- Witness for `c7_unknown_instance_type`: `m4.large` is not in the
table, with and without a root override. -/
theorem c7_unknown_instance_type_witness :
    volumeCount (.str "m4.large") = none ∧
    _make_block_device_map ⟨"ami-1", .num 8⟩ (.str "m4.large") (.num 100) =
      .error (.unknownInstanceType (.str "m4.large")) ∧
    _make_block_device_map ⟨"ami-1", .num 8⟩ (.str "m4.large") .null =
      .error (.unknownInstanceType (.str "m4.large")) := by
  refine ⟨by decide, ?_, ?_⟩
  · exact c7_unknown_instance_type ⟨"ami-1", .num 8⟩ (.num 100) (.str "m4.large") (by decide)
  · exact c7_unknown_instance_type ⟨"ami-1", .num 8⟩ .null (.str "m4.large") (by decide)

/-! ## Claim C9: failed apply leaves the session unchanged -/

/-- C9.  Whenever `Session.apply` raises any configuration-resolution
error, every attribute of the session is left exactly as it was:
attribute assignment happens only after `_apply` has returned
successfully. -/
theorem c9_apply_failure_preserves_session :
    ∀ (s : Session) (fuel : Nat) (label : String) (e : CfgError),
      (s.applyCfg fuel label).2 = some e → (s.applyCfg fuel label).1 = s := by
  intro s fuel label e h
  cases ho : tLookup s.configurations label with
  | none => simp [Session.applyCfg, ho]
  | some cfg =>
    cases hj : jApplyV s.configurations fuel (.str label) [] with
    | error e2 => simp [Session.applyCfg, ho, hj]
    | ok t => simp [Session.applyCfg, ho, hj] at h

/-- Witness for `c9_apply_failure_preserves_session`: applying the
invalid profile `badkey` of `docErrors` raises and leaves a fresh
session unchanged. -/
theorem c9_apply_failure_preserves_session_witness :
    (({ configurations := docErrors } : Session).applyCfg 1 "badkey").2 =
      some (.unknownOption "flavor" "badkey") ∧
    (({ configurations := docErrors } : Session).applyCfg 1 "badkey").1 =
      { configurations := docErrors } := by
  refine ⟨by decide, ?_⟩
  exact c9_apply_failure_preserves_session { configurations := docErrors } 1 "badkey"
    (.unknownOption "flavor" "badkey") (by decide)

/-! ## Claim C3: dry-run launches -/

/-- Every event emitted by the tail of the launch is either one of the
events already in the trace, a tagging call carrying the session's
dry-run flag, or — only when the session is not in dry-run mode — a
load-balancer registration. -/
theorem launchFinish_event_mem (s : Session) (o : Oracle) (evs : List Event)
    (ids : List String) (e : Event) (he : e ∈ (launchFinish s o evs ids).1) :
    e ∈ evs ∨ (∃ ids' tg, e = .createTags ids' tg s.dry_run) ∨
    (truthy s.dry_run = false ∧ ∃ lb ids', e = .registerInstances lb ids') := by
  unfold launchFinish at he
  split at he
  · exact Or.inl he
  · simp only [List.append_assoc, List.mem_append] at he
    rcases he with he | he | he | he
    · exact Or.inl he
    · by_cases hn : truthy s.name
      · rw [if_pos hn] at he
        simp only [List.mem_singleton] at he
        exact Or.inr (Or.inl ⟨ids, _, he⟩)
      · rw [if_neg hn] at he
        simp at he
    · by_cases ht : truthy s.tags
      · rw [if_pos ht] at he
        simp only [List.mem_singleton] at he
        exact Or.inr (Or.inl ⟨ids, _, he⟩)
      · rw [if_neg ht] at he
        simp at he
    · by_cases hd : (!truthy s.dry_run && truthy s.load_balancers) = true
      · rw [if_pos hd] at he
        obtain ⟨lb, _, rfl⟩ := List.mem_map.mp he
        have hdf : truthy s.dry_run = false := by
          rw [Bool.and_eq_true] at hd
          simpa using hd.1
        exact Or.inr (Or.inr ⟨hdf, lb, ids, rfl⟩)
      · rw [if_neg hd] at he
        simp at he

/-- Classification of every event a launch can emit. -/
theorem launch_event_mem (s : Session) (o : Oracle) (e : Event)
    (he : e ∈ (s.launch o).1) :
    (∃ img d, e = .runInstances img d) ∨
    (∃ p img, e = .requestSpot p img) ∨
    (∃ ids tg, e = .createTags ids tg s.dry_run) ∨
    (truthy s.dry_run = false ∧ ∃ lb ids, e = .registerInstances lb ids) := by
  simp only [Session.launch] at he
  cases h1 : _lookup_ami_id (o.images s.image) with
  | error err => simp only [h1] at he; simp at he
  | ok image =>
    simp only [h1] at he
    cases h2 : subnetStep o.subnets s.subnet with
    | error err => simp only [h2] at he; simp at he
    | ok subnet_id =>
      simp only [h2] at he
      cases h3 : _make_block_device_map image s.instance_type s.root_volume_size with
      | error err => simp only [h3] at he; simp at he
      | ok bdm =>
        simp only [h3] at he
        by_cases hsp : truthy s.spot
        · rw [if_pos hsp] at he
          cases h4 : priceLookup o.price_table s.instance_type o.region_name with
          | none => simp only [h4] at he; simp at he
          | some tp =>
            simp only [h4] at he
            split at he
            · simp only [List.mem_singleton] at he
              exact Or.inr (Or.inl ⟨_, _, he⟩)
            · rcases launchFinish_event_mem s o _ _ e he with h | h | h
              · simp only [List.mem_singleton] at h
                exact Or.inr (Or.inl ⟨_, _, h⟩)
              · exact Or.inr (Or.inr (Or.inl h))
              · exact Or.inr (Or.inr (Or.inr h))
        · rw [if_neg hsp] at he
          rcases launchFinish_event_mem s o _ _ e he with h | h | h
          · simp only [List.mem_singleton] at h
            exact Or.inl ⟨_, _, h⟩
          · exact Or.inr (Or.inr (Or.inl h))
          · exact Or.inr (Or.inr (Or.inr h))

/-- C3, counterexample.  A dry-run launch that produces instance ids
**does** issue a tagging call: `create_tags` is invoked with the
dry-run flag forwarded, rather than being skipped as the claim
states. -/
theorem c3_dry_run_counterexample :
    truthy sessionDryRun.dry_run = true ∧
    (Event.createTags ["i-1"] (.obj [("Name", .str "web")]) (.bool true)) ∈
      (sessionDryRun.launch oracleOnDemand).1 := by
  exact ⟨by decide, by decide⟩

/-- C3, amended.  A dry-run launch performs no load-balancer
registration, and every tagging call it issues carries the session's
dry-run flag (the flag is forwarded to the provider rather than the
call being skipped); the created instance ids are still returned: the
concrete dry-run launch returns the records re-fetched for the created
id `i-1`. -/
theorem c3_dry_run_amended :
    (∀ (s : Session) (o : Oracle), truthy s.dry_run = true →
      ∀ e ∈ (s.launch o).1,
        (∀ lb ids, e ≠ .registerInstances lb ids) ∧
        (∀ ids tg d, e = .createTags ids tg d → d = s.dry_run)) ∧
    (sessionDryRun.launch oracleOnDemand).2 = .ok [⟨"i-1", "10.0.0.1"⟩] := by
  constructor
  · intro s o hdry e he
    rcases launch_event_mem s o e he with
      ⟨img, d, rfl⟩ | ⟨p, img, rfl⟩ | ⟨ids, tg, rfl⟩ | ⟨hd, lb, ids, rfl⟩
    · exact ⟨fun lb ids h => Event.noConfusion h,
        fun ids tg d h => Event.noConfusion h⟩
    · exact ⟨fun lb ids h => Event.noConfusion h,
        fun ids tg d h => Event.noConfusion h⟩
    · refine ⟨fun lb ids2 h => Event.noConfusion h, fun ids2 tg2 d2 h => ?_⟩
      injection h with h1 h2 h3
      exact h3.symm
    · rw [hdry] at hd
      cases hd
  · decide

/-- Witness for `c3_dry_run_amended` at the concrete dry-run launch. -/
theorem c3_dry_run_amended_witness :
    truthy sessionDryRun.dry_run = true ∧
    (∀ e ∈ (sessionDryRun.launch oracleOnDemand).1,
      (∀ lb ids, e ≠ .registerInstances lb ids) ∧
      (∀ ids tg d, e = .createTags ids tg d → d = sessionDryRun.dry_run)) :=
  ⟨by decide, c3_dry_run_amended.1 sessionDryRun oracleOnDemand (by decide)⟩

/-! ## Claim C4: spot partial failure -/

/-- C4.  Each spot request is polled until its first non-`open`
observation; a request whose terminal state is not `active` is skipped
while the launch continues, an `active` request contributes its
instance id, and no error is raised either way: `pollAll` returns
exactly the instance ids of the `active` requests (given each request
reaches a terminal observation).  On the concrete two-request scenario
(first `cancelled`, second `active` with `i-1`) the launch returns
exactly the records for `i-1`; when every request fails the launch
returns an empty instance set, not an error. -/
theorem c4_spot_partial_failure :
    (∀ (o : Oracle) (rids : List String),
      (∀ r ∈ rids,
        ((o.spot_snaps r).find? (fun sn => sn.state != "open")).isSome) →
      pollAll o rids = .ok (rids.filterMap (fun r =>
        ((o.spot_snaps r).find? (fun sn => sn.state != "open")).bind
          (fun sn => if sn.state == "active" then some sn.instance_id else none)))) ∧
    (sessionSpot.launch oracleSpotPartial).2 = .ok [⟨"i-1", "10.0.0.2"⟩] ∧
    pollAll oracleSpotPartial ["sr-1", "sr-2"] = .ok ["i-1"] ∧
    pollAll oracleSpotAllFail ["sr-1", "sr-2"] = .ok [] ∧
    (sessionSpot.launch oracleSpotAllFail).2 = .ok [] := by
  refine ⟨?_, by decide, by decide, by decide, by decide⟩
  intro o rids h
  induction rids with
  | nil => rfl
  | cons r rest ih =>
    have hr := h r (by simp)
    obtain ⟨sn, hsn⟩ := Option.isSome_iff_exists.mp hr
    simp only [pollAll, hsn]
    rw [ih (fun r' hr' => h r' (by simp [hr']))]
    simp only [List.filterMap_cons, hsn, Option.some_bind]
    by_cases hact : (sn.state == "active") = true
    · simp [hact]
    · simp [hact]

/-- Witness for `c4_spot_partial_failure` at the concrete two-request
oracle. -/
theorem c4_spot_partial_failure_witness :
    (∀ r ∈ ["sr-1", "sr-2"],
      ((oracleSpotPartial.spot_snaps r).find? (fun sn => sn.state != "open")).isSome) ∧
    pollAll oracleSpotPartial ["sr-1", "sr-2"] =
      .ok (["sr-1", "sr-2"].filterMap (fun r =>
        ((oracleSpotPartial.spot_snaps r).find? (fun sn => sn.state != "open")).bind
          (fun sn => if sn.state == "active" then some sn.instance_id else none))) :=
  ⟨by decide,
   c4_spot_partial_failure.1 oracleSpotPartial ["sr-1", "sr-2"] (by decide)⟩

/-! ## Claim C10: spot price lookup -/

theorem launchFinish_head (s : Session) (o : Oracle) (ev : Event)
    (evs : List Event) (ids : List String) :
    (launchFinish s o (ev :: evs) ids).1.head? = some ev := by
  unfold launchFinish
  split
  · rfl
  · simp

/-- C10.  On every spot launch, the pricing table is consulted at
`(instance_type, region)` before the spot request is submitted: if the
pair is absent the launch raises `KeyError` with an empty event trace
(nothing was submitted), even when an explicit price is configured;
if the pair is present the submitted bid is the configured price when
one is set (truthy), the table price otherwise. -/
theorem c10_spot_price_table_lookup :
    ∀ (s : Session) (o : Oracle) (img : Image),
      truthy s.spot = true →
      o.images s.image = [img] →
      truthy s.subnet = false →
      (volumeCount s.instance_type).isSome →
      (priceLookup o.price_table s.instance_type o.region_name = none →
        s.launch o = ([], .error (.priceNotFound s.instance_type o.region_name))) ∧
      (∀ p, priceLookup o.price_table s.instance_type o.region_name = some p →
        (s.launch o).1.head? = some (.requestSpot
          (if truthy s.price then s.price else p) img.id)) := by
  intro s o img hspot himg hsub hvc
  have h1 : _lookup_ami_id (o.images s.image) = .ok img := by
    rw [himg]; rfl
  have h2 : subnetStep o.subnets s.subnet = .ok none := by
    unfold subnetStep
    rw [if_neg (by simp [hsub])]
  obtain ⟨n, hn⟩ := Option.isSome_iff_exists.mp hvc
  obtain ⟨bdm, h3⟩ :
      ∃ bdm, _make_block_device_map img s.instance_type s.root_volume_size =
        .ok bdm := by
    simp only [_make_block_device_map, hn]
    split <;> split <;> exact ⟨_, rfl⟩
  constructor
  · intro hpl
    simp only [Session.launch, h1, h2, h3, hspot, if_true, hpl]
  · intro p hpl
    simp only [Session.launch, h1, h2, h3, hspot, if_true, hpl]
    split
    · rfl
    · exact launchFinish_head s o _ _ _

/-- Witness for `c10_spot_price_table_lookup`: with an empty price
table the concrete spot launch fails before submitting anything, and
with the pair present and no configured price the table price `1` is
the submitted bid. -/
theorem c10_spot_price_table_lookup_witness :
    sessionSpot.launch oracleSpotNoPrice =
      ([], .error (.priceNotFound (.str "d2.xlarge") "us-east-1")) ∧
    (sessionSpot.launch oracleSpotPartial).1.head? =
      some (.requestSpot (.num 1) "ami-1") := by
  constructor
  · exact (c10_spot_price_table_lookup sessionSpot oracleSpotNoPrice
      ⟨"ami-1", .num 8⟩ (by decide) (by decide) (by decide) (by decide)).1
      (by decide)
  · exact (c10_spot_price_table_lookup sessionSpot oracleSpotPartial
      ⟨"ami-1", .num 8⟩ (by decide) (by decide) (by decide) (by decide)).2
      (.num 1) (by decide)

end Foolaunch
